import Mathlib

/-!
Verification of the timescan library (src/timestamp_finder.rs, src/lib.rs).

The development shallowly embeds the program over `List Char`:

* `strftime_to_regex` is translated replacement-by-replacement from the
  source chain of `str::replace` calls (`replaceAll` models Rust
  `str::replace`: left-to-right, non-overlapping, replace all).
* The `regex` crate is an external dependency of the program.  It is
  modelled by `regexParse` (the subset of the pattern syntax that the
  compiler emits and that the claim templates use: literals, `\d`,
  bracket classes, `.`, and counted repetitions `{m}`, `{m,}`, `{m,n}`;
  the other metacharacters, which never occur in those patterns, are
  mapped to a parse failure) and by `mAtoms`/`mFind` (leftmost-first,
  greedy matching, which on these alternation-free patterns coincides
  with the crate semantics).  A malformed counted repetition such as an
  unclosed `{1,2` is a construction-time error in the crate and is
  modelled as `none`.
* The `chrono` crate is an external dependency of the program.
  `lexFormat`, `parseItems` and `resolve` model
  `NaiveDateTime::parse_from_str` for the specifiers listed in the
  source documentation table (`%Y %C %y %m %b %B %h %d %H %M %S %.f %s`),
  including: up-to-width digit scanning, whitespace skipping before
  numeric items, field-consistency checks, the POSIX two-digit-year
  pivot, second defaulting to 0, leap-second 60 folding, full input
  consumption, and the timestamp-only resolution path.  Integer overflow
  of i64 is not modelled (all inputs in scope are at most ten digits).
-/

set_option maxRecDepth 4000

namespace Timescan

/-- Character classes occurring in compiled patterns: `\d`, a bracket
class `[...]` (possibly negated) given by closed ranges, a literal
character, and the `.` metacharacter. -/
inductive Cls where
  | digit
  | ranges (neg : Bool) (rs : List (Char × Char))
  | lit (c : Char)
  | any
deriving Repr, DecidableEq

/-- One pattern element: a class with a counted repetition `{lo,hi}`
(`hi = none` means unbounded).  `quantified` records whether an explicit
repetition operator was already applied (the regex crate rejects a
second one). -/
structure Atom where
  cls : Cls
  lo : Nat
  hi : Option Nat
  quantified : Bool
deriving Repr, DecidableEq

def clsMatch : Cls → Char → Bool
  | .digit, c => c.isDigit
  | .ranges neg rs, c => (rs.any fun r => decide (r.1 ≤ c) && decide (c ≤ r.2)) != neg
  | .lit l, c => c = l
  | .any, c => c != '\n'

/-- Length of the longest prefix of `s` all of whose characters match
the class. -/
def classRun (cl : Cls) : List Char → Nat
  | [] => 0
  | c :: s => if clsMatch cl c then classRun cl s + 1 else 0

/-- Try repetition counts `k, k-1, ..., lo` in that order (greedy
preference), returning the first success. -/
def tryFrom (lo : Nat) (f : Nat → Option α) : Nat → Option α
  | 0 => if lo = 0 then f 0 else none
  | k + 1 =>
    if k + 1 < lo then none
    else
      match f (k + 1) with
      | some r => some r
      | none => tryFrom lo f k

/-- Match a sequence of atoms at the start of `s`, greedy with
backtracking (leftmost-first preference order).  Returns the consumed
prefix and the rest. -/
def mAtoms : List Atom → List Char → Option (List Char × List Char)
  | [], s => some ([], s)
  | a :: as, s =>
    let run := classRun a.cls s
    let top := match a.hi with
      | none => run
      | some h => min run h
    tryFrom a.lo
      (fun k =>
        match mAtoms as (s.drop k) with
        | some (c, r) => some (s.take k ++ c, r)
        | none => none)
      top

/-- Leftmost match: try each start position from the left; models
`Regex::captures(s)?.get(0)` (the overall match). -/
def mFind (atoms : List Atom) : List Char → Option (List Char)
  | [] => (mAtoms atoms []).map Prod.fst
  | c :: s =>
    match mAtoms atoms (c :: s) with
    | some (m, _) => some m
    | none => mFind atoms s

/-- Fueled worker for `replaceAll`; each step consumes at least one
character, so fuel `s.length` is always sufficient. -/
def replaceAllF : Nat → List Char → List Char → List Char → List Char
  | 0, s, _, _ => s
  | _ + 1, [], _, _ => []
  | f + 1, c :: s, pat, rep =>
    if pat.isEmpty then c :: s
    else if pat.isPrefixOf (c :: s) then
      rep ++ replaceAllF f (List.drop pat.length (c :: s)) pat rep
    else c :: replaceAllF f s pat rep

/-- Rust `str::replace`: replace every non-overlapping occurrence of
`pat`, scanning left to right.  (All patterns used by the program are
nonempty.) -/
def replaceAll (s pat rep : List Char) : List Char := replaceAllF s.length s pat rep

/-- Replacement fragment for `%Y` in the source: `\d{1,4}`. -/
def fragY : List Char := ['\\', 'd', '{', '1', ',', '4', '}']

/-- Replacement fragment for `%C`, `%m`, `%d`, `%H`, `%M`, `%S` in the
source: `\d{1,2}`. -/
def frag12 : List Char := ['\\', 'd', '{', '1', ',', '2', '}']

/-- Replacement fragment for `%y` exactly as written in the source:
`\d{1,2` with no closing brace. -/
def fragy : List Char := ['\\', 'd', '{', '1', ',', '2']

/-- Replacement fragment for `%b` and `%h` in the source: `[A-Za-z]{3}`. -/
def fragb : List Char := ['[', 'A', '-', 'Z', 'a', '-', 'z', ']', '{', '3', '}']

/-- Replacement fragment for `%B` exactly as written in the source:
`[A-Za-z]{3,4,5,6,7,8,9}`. -/
def fragB : List Char :=
  ['[', 'A', '-', 'Z', 'a', '-', 'z', ']', '{', '3', ',', '4', ',', '5', ',', '6',
   ',', '7', ',', '8', ',', '9', '}']

/-- Replacement fragment for `%.f` in the source: `\d{1,}`. -/
def fragdotf : List Char := ['\\', 'd', '{', '1', ',', '}']

/-- Replacement fragment for `%s` in the source: `\d{1,10}`. -/
def frags : List Char := ['\\', 'd', '{', '1', ',', '1', '0', '}']

/-- `TimestampFinder::strftime_to_regex`, translated replacement by
replacement in the order of the source. -/
def strftime_to_regex (timeFormat : List Char) : List Char :=
  let r := replaceAll timeFormat ['%', 'Y'] fragY
  let r := replaceAll r ['%', 'C'] frag12
  let r := replaceAll r ['%', 'y'] fragy
  let r := replaceAll r ['%', 'm'] frag12
  let r := replaceAll r ['%', 'b'] fragb
  let r := replaceAll r ['%', 'B'] fragB
  let r := replaceAll r ['%', 'h'] fragb
  let r := replaceAll r ['%', 'd'] frag12
  let r := replaceAll r ['%', 'H'] frag12
  let r := replaceAll r ['%', 'M'] frag12
  let r := replaceAll r ['%', 'S'] frag12
  let r := replaceAll r ['%', '.', 'f'] fragdotf
  replaceAll r ['%', 's'] frags

def litAtom (c : Char) : Atom := { cls := .lit c, lo := 1, hi := some 1, quantified := false }

def digitsVal (ds : List Char) : Nat := ds.foldl (fun a c => a * 10 + (c.toNat - 48)) 0

/-- Apply a counted repetition to the most recently parsed atom; the
regex crate rejects a repetition with nothing before it and a
repetition applied to a repetition. -/
def applyRep (acc : List Atom) (lo : Nat) (hi : Option Nat) : Option (List Atom) :=
  match acc with
  | [] => none
  | a :: rest =>
    if a.quantified then none
    else some ({ a with lo := lo, hi := hi, quantified := true } :: rest)

/-- Parse the body of a bracket class up to the closing `]`; an unclosed
class is an error.  Escapes inside classes are outside the modelled
fragment language. -/
def classItemsF : Nat → List Char → List (Char × Char) → Option (List (Char × Char) × List Char)
  | 0, _, _ => none
  | _ + 1, [], _ => none
  | _ + 1, '\\' :: _, _ => none
  | _ + 1, ']' :: s, acc => some (acc, s)
  | f + 1, c :: '-' :: d :: s2, acc =>
    if d = ']' then some (acc ++ [(c, c), ('-', '-')], s2)
    else if d < c then none
    else classItemsF f s2 (acc ++ [(c, d)])
  | f + 1, c :: s, acc => classItemsF f s (acc ++ [(c, c)])

/-- Fueled worker for `regexParse`; each step consumes at least one
character. -/
def rxParseF : Nat → List Char → List Atom → Option (List Atom)
  | 0, _, _ => none
  | _ + 1, [], acc => some acc.reverse
  | f + 1, '\\' :: s, acc =>
    match s with
    | [] => none
    | c :: s2 =>
      if c = 'd' then
        rxParseF f s2 ({ cls := .digit, lo := 1, hi := some 1, quantified := false } :: acc)
      else if c.isAlphanum then none
      else rxParseF f s2 (litAtom c :: acc)
  | f + 1, '[' :: s, acc =>
    match s with
    | '^' :: t =>
      match classItemsF t.length t [] with
      | some (rs, s2) =>
        rxParseF f s2 ({ cls := .ranges true rs, lo := 1, hi := some 1, quantified := false } :: acc)
      | none => none
    | _ =>
      match classItemsF s.length s [] with
      | some (rs, s2) =>
        rxParseF f s2 ({ cls := .ranges false rs, lo := 1, hi := some 1, quantified := false } :: acc)
      | none => none
  | f + 1, '{' :: s, acc =>
    let ds := s.takeWhile Char.isDigit
    if ds.isEmpty then none
    else
      let v1 := digitsVal ds
      match s.drop ds.length with
      | '}' :: s2 => (applyRep acc v1 (some v1)).bind (rxParseF f s2)
      | ',' :: s2 =>
        let ds2 := s2.takeWhile Char.isDigit
        match s2.drop ds2.length with
        | '}' :: s3 =>
          if ds2.isEmpty then (applyRep acc v1 none).bind (rxParseF f s3)
          else if digitsVal ds2 < v1 then none
          else (applyRep acc v1 (some (digitsVal ds2))).bind (rxParseF f s3)
        | _ => none
      | _ => none
  | f + 1, '.' :: s, acc =>
    rxParseF f s ({ cls := .any, lo := 1, hi := some 1, quantified := false } :: acc)
  | f + 1, c :: s, acc =>
    if c = '*' || c = '+' || c = '?' || c = '(' || c = ')' || c = '|' || c = '^' || c = '$' then
      none
    else rxParseF f s (litAtom c :: acc)

/-- Model of `Regex::new` on the fragment language emitted by
`strftime_to_regex` (plus the literal characters used by the claim
templates): `some` compiled atoms on success, `none` on a pattern the
crate rejects. -/
def regexParse (s : List Char) : Option (List Atom) := rxParseF (s.length + 1) s []

/-- Format specifiers supported by the source documentation table. -/
inductive FSpec where
  | Y | C | y2 | m | b | B | d | H | M | S | dotf | sEpoch
deriving Repr, DecidableEq

/-- One item of a lexed chrono format string: a literal character, a
whitespace item (matches any amount of whitespace, including none), or
a specifier. -/
inductive FItem where
  | lit (c : Char)
  | space
  | spec (sp : FSpec)
deriving Repr, DecidableEq

/-- chrono `StrftimeItems` restricted to the specifiers of the source
table; `%h` lexes like `%b` and `%%` like a literal percent sign.  A
specifier outside the table yields an error item, which makes the parse
fail, modelled as `none` up front. -/
def lexFormat : List Char → Option (List FItem)
  | [] => some []
  | '%' :: '.' :: 'f' :: rest => (lexFormat rest).map (FItem.spec .dotf :: ·)
  | '%' :: '%' :: rest => (lexFormat rest).map (FItem.lit '%' :: ·)
  | '%' :: c :: rest =>
    let sp : Option FSpec :=
      if c = 'Y' then some .Y
      else if c = 'C' then some .C
      else if c = 'y' then some .y2
      else if c = 'm' then some .m
      else if c = 'b' then some .b
      else if c = 'B' then some .B
      else if c = 'h' then some .b
      else if c = 'd' then some .d
      else if c = 'H' then some .H
      else if c = 'M' then some .M
      else if c = 'S' then some .S
      else if c = 's' then some .sEpoch
      else none
    sp.bind fun sp => (lexFormat rest).map (FItem.spec sp :: ·)
  | '%' :: [] => none
  | c :: rest =>
    (lexFormat rest).map ((if c.isWhitespace then FItem.space else FItem.lit c) :: ·)

/-- chrono `Parsed`: the calendar fields collected during parsing.
The hour is stored directly rather than split into `hour_div_12` and
`hour_mod_12`: with only `%H` in scope the two are observationally the
same. -/
structure Parsed where
  year : Option Int
  year_div_100 : Option Nat
  year_mod_100 : Option Nat
  month : Option Nat
  day : Option Nat
  hour : Option Nat
  minute : Option Nat
  second : Option Nat
  nanosecond : Option Nat
  timestamp : Option Int
deriving Repr, DecidableEq

def Parsed.init : Parsed :=
  { year := none, year_div_100 := none, year_mod_100 := none, month := none, day := none,
    hour := none, minute := none, second := none, nanosecond := none, timestamp := none }

/-- chrono `set_if_consistent`: setting a field twice with different
values is an error. -/
def setN (cur : Option Nat) (v : Nat) : Option (Option Nat) :=
  match cur with
  | none => some (some v)
  | some w => if w = v then some (some w) else none

def setI (cur : Option Int) (v : Int) : Option (Option Int) :=
  match cur with
  | none => some (some v)
  | some w => if w = v then some (some w) else none

/-- chrono `scan::number(s, 1, w)`: consume between 1 and `w` leading
ASCII digits (`w = none` is unbounded), returning the value and the
rest. -/
def scanNum (w : Option Nat) (s : List Char) : Option (Nat × List Char) :=
  let ds := s.takeWhile Char.isDigit
  let ds := match w with
    | none => ds
    | some w => ds.take w
  if ds.isEmpty then none else some (digitsVal ds, s.drop ds.length)

def monthNames3 : List (List Char) :=
  [['j', 'a', 'n'], ['f', 'e', 'b'], ['m', 'a', 'r'], ['a', 'p', 'r'], ['m', 'a', 'y'],
   ['j', 'u', 'n'], ['j', 'u', 'l'], ['a', 'u', 'g'], ['s', 'e', 'p'], ['o', 'c', 't'],
   ['n', 'o', 'v'], ['d', 'e', 'c']]

/-- chrono `scan::short_month0`: the first three characters,
case-insensitively, must be an abbreviated English month name. -/
def matchMonth3 (s : List Char) : Option (Nat × List Char) :=
  let pre := (s.take 3).map Char.toLower
  match monthNames3.indexOf? pre with
  | some i => some (i + 1, s.drop 3)
  | none => none

def monthNamesLong : List (List Char) :=
  [['j', 'a', 'n', 'u', 'a', 'r', 'y'], ['f', 'e', 'b', 'r', 'u', 'a', 'r', 'y'],
   ['m', 'a', 'r', 'c', 'h'], ['a', 'p', 'r', 'i', 'l'], ['m', 'a', 'y'],
   ['j', 'u', 'n', 'e'], ['j', 'u', 'l', 'y'], ['a', 'u', 'g', 'u', 's', 't'],
   ['s', 'e', 'p', 't', 'e', 'm', 'b', 'e', 'r'], ['o', 'c', 't', 'o', 'b', 'e', 'r'],
   ['n', 'o', 'v', 'e', 'm', 'b', 'e', 'r'], ['d', 'e', 'c', 'e', 'm', 'b', 'e', 'r']]

def findLong : List (Nat × List Char) → List Char → Option (Nat × List Char)
  | [], _ => none
  | (i, nm) :: rest, s =>
    if (s.take nm.length).map Char.toLower = nm then some (i, s.drop nm.length)
    else findLong rest s

/-- chrono `scan::short_or_long_month0` as used by `%B`: a full month
name, else the three-letter abbreviation. -/
def matchMonthLong (s : List Char) : Option (Nat × List Char) :=
  match findLong ((List.range 12).map (fun i => (i + 1, monthNamesLong.getD i []))) s with
  | some r => some r
  | none => matchMonth3 s

def Parsed.withYear (p : Parsed) (f : Option Int) : Parsed := { p with year := f }
def Parsed.withYearDiv (p : Parsed) (f : Option Nat) : Parsed := { p with year_div_100 := f }
def Parsed.withYearMod (p : Parsed) (f : Option Nat) : Parsed := { p with year_mod_100 := f }
def Parsed.withMonth (p : Parsed) (f : Option Nat) : Parsed := { p with month := f }
def Parsed.withDay (p : Parsed) (f : Option Nat) : Parsed := { p with day := f }
def Parsed.withHour (p : Parsed) (f : Option Nat) : Parsed := { p with hour := f }
def Parsed.withMinute (p : Parsed) (f : Option Nat) : Parsed := { p with minute := f }
def Parsed.withSecond (p : Parsed) (f : Option Nat) : Parsed := { p with second := f }
def Parsed.withNano (p : Parsed) (f : Option Nat) : Parsed := { p with nanosecond := f }
def Parsed.withTs (p : Parsed) (f : Option Int) : Parsed := { p with timestamp := f }

/-- chrono parsing of a single item.  Numeric items skip leading
whitespace; `%Y` accepts an optional sign (unbounded width when
signed); `%.f` consumes a dot plus digits when the dot is present and
nothing otherwise; `%s` sets the timestamp field. -/
def parseSpec : FSpec → List Char → Parsed → Option (Parsed × List Char)
  | .Y, s, p =>
    let s := s.dropWhile Char.isWhitespace
    let num : Option (Int × List Char) :=
      match s with
      | '+' :: t => (scanNum none t).map fun vr => ((vr.1 : Int), vr.2)
      | '-' :: t => (scanNum none t).map fun vr => (-(vr.1 : Int), vr.2)
      | _ => (scanNum (some 4) s).map fun vr => ((vr.1 : Int), vr.2)
    num.bind fun vr => (setI p.year vr.1).map fun f => (p.withYear f, vr.2)
  | .C, s, p =>
    (scanNum (some 2) (s.dropWhile Char.isWhitespace)).bind fun vr =>
      (setN p.year_div_100 vr.1).map fun f => (p.withYearDiv f, vr.2)
  | .y2, s, p =>
    (scanNum (some 2) (s.dropWhile Char.isWhitespace)).bind fun vr =>
      (setN p.year_mod_100 vr.1).map fun f => (p.withYearMod f, vr.2)
  | .m, s, p =>
    (scanNum (some 2) (s.dropWhile Char.isWhitespace)).bind fun vr =>
      (setN p.month vr.1).map fun f => (p.withMonth f, vr.2)
  | .d, s, p =>
    (scanNum (some 2) (s.dropWhile Char.isWhitespace)).bind fun vr =>
      (setN p.day vr.1).map fun f => (p.withDay f, vr.2)
  | .H, s, p =>
    (scanNum (some 2) (s.dropWhile Char.isWhitespace)).bind fun vr =>
      (setN p.hour vr.1).map fun f => (p.withHour f, vr.2)
  | .M, s, p =>
    (scanNum (some 2) (s.dropWhile Char.isWhitespace)).bind fun vr =>
      (setN p.minute vr.1).map fun f => (p.withMinute f, vr.2)
  | .S, s, p =>
    (scanNum (some 2) (s.dropWhile Char.isWhitespace)).bind fun vr =>
      (setN p.second vr.1).map fun f => (p.withSecond f, vr.2)
  | .b, s, p =>
    (matchMonth3 s).bind fun vr =>
      (setN p.month vr.1).map fun f => (p.withMonth f, vr.2)
  | .B, s, p =>
    (matchMonthLong s).bind fun vr =>
      (setN p.month vr.1).map fun f => (p.withMonth f, vr.2)
  | .dotf, s, p =>
    (match s with
     | '.' :: t =>
       (scanNum (some 9) t).bind fun vr =>
         (setN p.nanosecond vr.1).map fun f => (p.withNano f, vr.2.dropWhile Char.isDigit)
     | _ => some (p, s))
  | .sEpoch, s, p =>
    (scanNum none (s.dropWhile Char.isWhitespace)).bind fun vr =>
      (setI p.timestamp (vr.1 : Int)).map fun f => (p.withTs f, vr.2)

/-- chrono `format::parse`: walk the items over the input, threading the
`Parsed` state. -/
def parseItems : List FItem → List Char → Parsed → Option (Parsed × List Char)
  | [], s, p => some (p, s)
  | FItem.lit c :: items, s, p =>
    (match s with
     | x :: xs => if x = c then parseItems items xs p else none
     | [] => none)
  | FItem.space :: items, s, p => parseItems items (s.dropWhile Char.isWhitespace) p
  | FItem.spec sp :: items, s, p =>
    (parseSpec sp s p).bind fun pr => parseItems items pr.2 pr.1

/-- chrono year resolution: a full year must be consistent with any
century or two-digit-year field; a two-digit year alone resolves with
the POSIX pivot (0-68 means 2000s, 69-99 means 1900s); a century alone
is not enough. -/
def resolveYear (p : Parsed) : Option Int :=
  match p.year with
  | some y =>
    let qOk := match p.year_div_100 with
      | none => true
      | some q => decide ((q : Int) = y.fdiv 100)
    let rOk := match p.year_mod_100 with
      | none => true
      | some r => decide ((r : Int) = y.emod 100)
    if qOk && rOk then some y else none
  | none =>
    match p.year_div_100, p.year_mod_100 with
    | some q, some r => some ((q : Int) * 100 + (r : Int))
    | none, some r => some (if r < 69 then 2000 + (r : Int) else 1900 + (r : Int))
    | _, _ => none

def isLeap (y : Int) : Bool :=
  (y.emod 4 = 0 && y.emod 100 != 0) || y.emod 400 = 0

def daysInMonth (y : Int) (m : Nat) : Nat :=
  if m = 1 then 31
  else if m = 2 then (if isLeap y then 29 else 28)
  else if m = 3 then 31
  else if m = 4 then 30
  else if m = 5 then 31
  else if m = 6 then 30
  else if m = 7 then 31
  else if m = 8 then 31
  else if m = 9 then 30
  else if m = 10 then 31
  else if m = 11 then 30
  else 31

/-- Days from 1970-01-01 to the given proleptic Gregorian date (the
standard civil-from-date computation, matching chrono for valid dates). -/
def daysFromCivil (y : Int) (m d : Nat) : Int :=
  let y2 : Int := if m ≤ 2 then y - 1 else y
  let era : Int := y2.fdiv 400
  let yoe : Int := y2 - era * 400
  let mp : Int := if m ≤ 2 then (m : Int) + 9 else (m : Int) - 3
  let doy : Int := (153 * mp + 2).fdiv 5 + (d : Int) - 1
  let doe : Int := yoe * 365 + yoe.fdiv 4 - yoe.fdiv 100 + doy
  era * 146097 + doe - 719468

/-- chrono `Parsed::to_naive_date`: requires a resolved year, a month
and a day, and the date must be calendar-valid.  Returns the day count
from the epoch. -/
def toDate (p : Parsed) : Option Int :=
  (resolveYear p).bind fun y =>
  p.month.bind fun mo =>
  p.day.bind fun d =>
  if 1 ≤ mo ∧ mo ≤ 12 ∧ 1 ≤ d ∧ d ≤ daysInMonth y mo then some (daysFromCivil y mo d)
  else none

/-- chrono `Parsed::to_naive_time` (to second precision): hour and
minute are required, the second defaults to 0, and a leap second 60 is
folded onto 59. -/
def toTime (p : Parsed) : Option Nat :=
  p.hour.bind fun h =>
  p.minute.bind fun mi =>
  let sec := p.second.getD 0
  if h < 24 ∧ mi < 60 ∧ sec ≤ 60 then some (h * 3600 + mi * 60 + min sec 59)
  else none

/-- Inverse civil computation: epoch day count to (year, month, day). -/
def civilFromDays (z : Int) : Int × Nat × Nat :=
  let z2 := z + 719468
  let era := z2.fdiv 146097
  let doe := (z2 - era * 146097).toNat
  let yoe := (doe - doe / 1460 + doe / 36524 - doe / 146096) / 365
  let doy := doe - (365 * yoe + yoe / 4 - yoe / 100)
  let mp := (5 * doy + 2) / 153
  let d := doy - (153 * mp + 2) / 5 + 1
  let m := if mp < 10 then mp + 3 else mp - 9
  (era * 400 + (yoe : Int) + (if m ≤ 2 then 1 else 0), m, d)

/-- Calendar fields of an epoch timestamp (UTC). -/
def civilFromTimestamp (ts : Int) : Int × Nat × Nat × Nat × Nat × Nat :=
  let days := ts.fdiv 86400
  let rem := (ts.emod 86400).toNat
  let ymd := civilFromDays days
  (ymd.1, ymd.2.1, ymd.2.2, rem / 3600, rem / 60 % 60, rem % 60)

def okN (f : Option Nat) (v : Nat) : Bool :=
  match f with
  | none => true
  | some w => w = v

def okI (f : Option Int) (v : Int) : Bool :=
  match f with
  | none => true
  | some w => w = v

/-- chrono `Parsed::to_naive_datetime_with_offset(0)` followed by
`.timestamp()`: if the calendar fields resolve to a date and a time,
that pair gives the result (cross-checked against a `%s` timestamp when
both are present); otherwise a present timestamp field alone determines
the result, provided every calendar field that was given agrees with
the calendar form of that timestamp. -/
def resolve (p : Parsed) : Option Int :=
  match toDate p, toTime p with
  | some days, some secs =>
    let dt : Int := days * 86400 + (secs : Int)
    (match p.timestamp with
     | some ts => if ts = dt then some dt else none
     | none => some dt)
  | _, _ =>
    match p.timestamp with
    | some ts =>
      let c := civilFromTimestamp ts
      if okI p.year c.1 &&
          okN p.year_div_100 ((c.1.fdiv 100).toNat) && okN p.year_mod_100 ((c.1.emod 100).toNat) &&
          okN p.month c.2.1 && okN p.day c.2.2.1 && okN p.hour c.2.2.2.1 &&
          okN p.minute c.2.2.2.2.1 && okN p.second c.2.2.2.2.2 then
        some ts
      else none
    | none => none

/-- chrono `NaiveDateTime::parse_from_str(s, fmt)` followed by
`.timestamp()`, as an `Option`: the whole input must be consumed and the
collected fields must resolve. -/
def chronoParse (fmt : List Char) (s : List Char) : Option Int :=
  (lexFormat fmt).bind fun items =>
  (parseItems items s Parsed.init).bind fun pr =>
  if pr.2.isEmpty then resolve pr.1 else none

/-- `TimestampFinder`: the format string and the compiled pattern, set
together at construction. -/
structure TimestampFinder where
  datetime_format : List Char
  regex : List Atom
deriving Repr, DecidableEq

/-- `TimestampFinder::new_with_format`: compile the format to a pattern
and build the regex; a pattern the regex crate rejects makes the
constructor fail (`Result::Err`, modelled as `none`). -/
def new_with_format (datetimeFormat : List Char) : Option TimestampFinder :=
  (regexParse (strftime_to_regex datetimeFormat)).map fun a =>
    { datetime_format := datetimeFormat, regex := a }

/-- `TimestampFinder::new`: the built-in Common Log Format template. -/
def TimestampFinder.new : Option TimestampFinder :=
  new_with_format "%d/%b/%Y:%H:%M:%S%.f".data

/-- `TimestampFinder::find_timestamp`: take the leftmost match of the
compiled pattern, then parse it with chrono against the stored format;
either failure yields `none`. -/
def find_timestamp (f : TimestampFinder) (s : List Char) : Option Int :=
  (mFind f.regex s).bind fun m => chronoParse f.datetime_format m

/-- `Iterator::map_while(Result::ok)` over the results produced by
`BufReader::lines`: keep lines until the first read error, which ends
the iteration. -/
def mapWhileOk : List (Except Unit (List Char)) → List (List Char)
  | [] => []
  | .ok l :: rest => l :: mapWhileOk rest
  | .error _ :: _ => []

/-- `TimestampFinder::scan`: the reader is modelled by the list of
line-read results its `BufReader` produces (`ok line` or a read error).
Lines are taken until the first error, each is given to
`find_timestamp`, misses are dropped, and the hits are collected in
order; the function always returns `Ok`. -/
def scan (f : TimestampFinder) (reader : List (Except Unit (List Char))) :
    Except Unit (List Int) :=
  .ok ((mapWhileOk reader).filterMap (find_timestamp f))

/-- Compiled atom for a digit run. -/
def dAtom (lo : Nat) (hi : Option Nat) : Atom :=
  { cls := .digit, lo := lo, hi := hi, quantified := true }

/-- The compiled pattern of the default template
`\d{1,2}/[A-Za-z]{3}/\d{1,4}:\d{1,2}:\d{1,2}:\d{1,2}\d{1,}`. -/
def defaultAtoms : List Atom :=
  [dAtom 1 (some 2), litAtom '/',
   { cls := .ranges false [('A', 'Z'), ('a', 'z')], lo := 3, hi := some 3, quantified := true },
   litAtom '/', dAtom 1 (some 4), litAtom ':', dAtom 1 (some 2), litAtom ':', dAtom 1 (some 2),
   litAtom ':', dAtom 1 (some 2), dAtom 1 none]

/-- The finder built by the no-argument constructor. -/
def defaultFinder : TimestampFinder :=
  { datetime_format := "%d/%b/%Y:%H:%M:%S%.f".data, regex := defaultAtoms }

/-- The lexed items of the default template. -/
def defaultItems : List FItem :=
  [.spec .d, .lit '/', .spec .b, .lit '/', .spec .Y, .lit ':', .spec .H, .lit ':',
   .spec .M, .lit ':', .spec .S, .spec .dotf]

/-- The finder built from the template `%s`. -/
def epochFinder : TimestampFinder :=
  { datetime_format := "%s".data, regex := [dAtom 1 (some 10)] }

/-- A stored numeric field whose value lies outside `[lo, hi]`. -/
def badN (f : Option Nat) (lo hi : Nat) : Bool :=
  match f with
  | none => false
  | some v => decide (v < lo) || decide (hi < v)

/-- A parsed record holding a calendar-invalid digit run: month outside
1-12, day outside 1-31, hour above 23, minute above 59, or second above
60 (60 itself is a valid leap second). -/
def calendarInvalid (p : Parsed) : Bool :=
  badN p.month 1 12 || badN p.day 1 31 || badN p.hour 0 23 ||
    badN p.minute 0 59 || badN p.second 0 60

/-- If no match starts at any of the first `k` positions, the leftmost
search may start at position `k`. -/
theorem mFind_skip (atoms : List Atom) (k : Nat) :
    ∀ s : List Char, (∀ i, i < k → mAtoms atoms (s.drop i) = none) →
      mFind atoms s = mFind atoms (s.drop k) := by
  induction k with
  | zero => intro s _; rfl
  | succ k ih =>
    intro s h
    cases s with
    | nil => simp
    | cons c t =>
      have h0 : mAtoms atoms (c :: t) = none := h 0 (Nat.succ_pos k)
      have step : mFind atoms (c :: t) = mFind atoms t := by
        simp only [mFind]
        rw [h0]
      rw [step]
      exact ih t fun i hi => (h (i + 1) (Nat.succ_lt_succ hi) : _)

theorem mapWhileOk_map_ok (lines : List (List Char)) :
    mapWhileOk (lines.map Except.ok) = lines := by
  induction lines with
  | nil => rfl
  | cons l t ih => simpa [mapWhileOk] using ih

theorem mapWhileOk_trunc (good : List (List Char)) (rest : List (Except Unit (List Char))) :
    mapWhileOk (good.map Except.ok ++ Except.error () :: rest) = good := by
  induction good with
  | nil => rfl
  | cons l t ih => simpa [mapWhileOk] using ih

theorem replaceAllF_no_pct (u rep : List Char) :
    ∀ (fuel : Nat) (s : List Char), ¬ '%' ∈ s → replaceAllF fuel s ('%' :: u) rep = s := by
  intro fuel
  induction fuel with
  | zero => intro s _; rfl
  | succ f ih =>
    intro s hs
    cases s with
    | nil => rfl
    | cons c t =>
      have hc : ('%' == c) = false := by
        have : c ≠ '%' := fun e => hs (e ▸ List.mem_cons_self c t)
        simpa [beq_iff_eq] using fun e => this e.symm
      have hpre : ('%' :: u).isPrefixOf (c :: t) = false := by
        simp [List.isPrefixOf, hc]
      simp only [replaceAllF, List.isEmpty_cons, hpre, Bool.false_eq_true, if_false]
      exact congrArg (c :: ·) (ih t fun hm => hs (List.mem_cons_of_mem c hm))

/-- A pattern starting with a percent sign never occurs in a
percent-free string, so the replacement is the identity there. -/
theorem replaceAll_no_pct (s u rep : List Char) (h : ¬ '%' ∈ s) :
    replaceAll s ('%' :: u) rep = s :=
  replaceAllF_no_pct u rep s.length s h

set_option maxHeartbeats 1000000 in
theorem daysInMonth_le (y : Int) (m : Nat) : daysInMonth y m ≤ 31 := by
  unfold daysInMonth
  split_ifs <;> omega

/-- Parsing one item other than `%s` never sets the timestamp field. -/
theorem parseSpec_ts (sp : FSpec) (s : List Char) (p : Parsed) (pr : Parsed × List Char)
    (hsp : ¬ sp = FSpec.sEpoch) (h : parseSpec sp s p = some pr) :
    pr.1.timestamp = p.timestamp := by
  cases sp
  case sEpoch => exact absurd rfl hsp
  case dotf =>
    simp only [parseSpec] at h
    split at h
    · obtain ⟨vr, -, h2⟩ := Option.bind_eq_some.mp h
      obtain ⟨f, -, hpr⟩ := Option.map_eq_some'.mp h2
      rw [← hpr]
      rfl
    · obtain rfl := Option.some.inj h
      rfl
  all_goals
    simp only [parseSpec] at h
  all_goals
    obtain ⟨vr, -, h2⟩ := Option.bind_eq_some.mp h
    obtain ⟨f, -, hpr⟩ := Option.map_eq_some'.mp h2
    rw [← hpr]
    rfl

/-- Parsing a format whose items do not include `%s` leaves the
timestamp field untouched. -/
theorem parseItems_ts (items : List FItem) :
    ∀ (s : List Char) (p : Parsed) (pr : Parsed × List Char),
      ¬ FItem.spec FSpec.sEpoch ∈ items → parseItems items s p = some pr →
      pr.1.timestamp = p.timestamp := by
  induction items with
  | nil =>
    intro s p pr _ h
    rw [← Option.some.inj h]
  | cons it rest ih =>
    intro s p pr hno h
    cases it with
    | lit c =>
      cases s with
      | nil => exact absurd h (by simp [parseItems])
      | cons x xs =>
        simp only [parseItems] at h
        split at h
        · exact ih xs p pr (fun hm => hno (List.mem_cons_of_mem _ hm)) h
        · exact absurd h (by simp)
    | space =>
      simp only [parseItems] at h
      exact ih _ p pr (fun hm => hno (List.mem_cons_of_mem _ hm)) h
    | spec sp =>
      simp only [parseItems, Option.bind_eq_some] at h
      obtain ⟨pr2, hps, hrest⟩ := h
      have hsp : ¬ sp = FSpec.sEpoch := by
        intro e
        exact hno (e ▸ List.mem_cons_self _ _)
      have h1 := parseSpec_ts sp s p pr2 hsp hps
      have h2 := ih pr2.2 pr2.1 pr (fun hm => hno (List.mem_cons_of_mem _ hm)) hrest
      rw [h2, h1]

/-- A month field outside 1-12 can never pass the calendar validity
check. -/
theorem toDate_month_bad (p : Parsed) (mo : Nat) (hmo : p.month = some mo)
    (h : mo < 1 ∨ 12 < mo) : toDate p = none := by
  unfold toDate
  cases hy : resolveYear p with
  | none => rfl
  | some y =>
    simp only [Option.some_bind']
    rw [hmo]
    simp only [Option.some_bind']
    cases hd : p.day with
    | none => rfl
    | some d =>
      simp only [Option.some_bind']
      have hne : ¬ (1 ≤ mo ∧ mo ≤ 12 ∧ 1 ≤ d ∧ d ≤ daysInMonth y mo) := by omega
      rw [if_neg hne]

/-- A day field outside 1-31 can never pass the calendar validity
check: no month of any year has more than 31 days. -/
theorem toDate_day_bad (p : Parsed) (d : Nat) (hd : p.day = some d)
    (h : d < 1 ∨ 31 < d) : toDate p = none := by
  unfold toDate
  cases hy : resolveYear p with
  | none => rfl
  | some y =>
    simp only [Option.some_bind']
    cases hmo : p.month with
    | none => rfl
    | some mo =>
      simp only [Option.some_bind']
      rw [hd]
      simp only [Option.some_bind']
      have h31 := daysInMonth_le y mo
      have hne : ¬ (1 ≤ mo ∧ mo ≤ 12 ∧ 1 ≤ d ∧ d ≤ daysInMonth y mo) := by omega
      rw [if_neg hne]

/-- An hour above 23, a minute above 59 or a second above 60 can never
pass the time validity check. -/
theorem toTime_bad (p : Parsed)
    (h : (∃ v, p.hour = some v ∧ 24 ≤ v) ∨ (∃ v, p.minute = some v ∧ 60 ≤ v) ∨
      (∃ v, p.second = some v ∧ 61 ≤ v)) :
    toTime p = none := by
  unfold toTime
  cases hh : p.hour with
  | none => rfl
  | some hr =>
    simp only [Option.some_bind']
    cases hmi : p.minute with
    | none => rfl
    | some mi =>
      simp only [Option.some_bind']
      have hne : ¬ (hr < 24 ∧ mi < 60 ∧ p.second.getD 0 ≤ 60) := by
        intro hcon
        rcases h with ⟨v, he, hb⟩ | ⟨v, he, hb⟩ | ⟨v, he, hb⟩
        · rw [hh] at he
          have := Option.some.inj he
          omega
        · rw [hmi] at he
          have := Option.some.inj he
          omega
        · have hg : p.second.getD 0 = v := by rw [he]; rfl
          rw [hg] at hcon
          omega
      rw [if_neg hne]

theorem badN_elim (f : Option Nat) (lo hi : Nat) (h : badN f lo hi = true) :
    ∃ v, f = some v ∧ (v < lo ∨ hi < v) := by
  cases f with
  | none => exact absurd h (by simp [badN])
  | some v =>
    refine ⟨v, rfl, ?_⟩
    simpa [badN] using h

/-- A calendar-invalid record fails date or time resolution. -/
theorem calendarInvalid_elim (p : Parsed) (hinv : calendarInvalid p = true) :
    toDate p = none ∨ toTime p = none := by
  have hsplit : badN p.month 1 12 = true ∨ badN p.day 1 31 = true ∨
      badN p.hour 0 23 = true ∨ badN p.minute 0 59 = true ∨ badN p.second 0 60 = true := by
    simpa [calendarInvalid, Bool.or_eq_true, or_assoc] using hinv
  rcases hsplit with h | h | h | h | h
  · obtain ⟨v, he, hb⟩ := badN_elim _ _ _ h
    exact Or.inl (toDate_month_bad p v he hb)
  · obtain ⟨v, he, hb⟩ := badN_elim _ _ _ h
    exact Or.inl (toDate_day_bad p v he hb)
  · obtain ⟨v, he, hb⟩ := badN_elim _ _ _ h
    exact Or.inr (toTime_bad p (Or.inl ⟨v, he, by omega⟩))
  · obtain ⟨v, he, hb⟩ := badN_elim _ _ _ h
    exact Or.inr (toTime_bad p (Or.inr (Or.inl ⟨v, he, by omega⟩)))
  · obtain ⟨v, he, hb⟩ := badN_elim _ _ _ h
    exact Or.inr (toTime_bad p (Or.inr (Or.inr ⟨v, he, by omega⟩)))

/-- With no timestamp field to fall back on, a calendar-invalid record
fails resolution outright. -/
theorem resolve_none_of_invalid (p : Parsed) (hts : p.timestamp = none)
    (hinv : calendarInvalid p = true) : resolve p = none := by
  unfold resolve
  rcases calendarInvalid_elim p hinv with h | h
  · rw [h, hts]
  · cases htd : toDate p with
    | none => rw [hts]
    | some days => rw [h, hts]

/-- C1: the claim says every `%y` compiles to a well-formed 1-2 digit
fragment.  In the source the replacement text for `%y` is the unclosed
`\d{1,2`, the regex crate rejects that pattern, and the constructor
fails; `%Y` in the same template still receives its own correct 1-4
digit fragment, so the failure is exactly the missing closing brace. -/
theorem claim_C1_eval :
    strftime_to_regex ['%', 'y'] = fragy ∧
    regexParse fragy = none ∧
    new_with_format ['%', 'y'] = none ∧
    strftime_to_regex ['%', 'y', '/', '%', 'Y'] = fragy ++ ('/' :: fragY) ∧
    new_with_format ['%', 'y', '/', '%', 'Y'] = none ∧
    new_with_format ['%', 'Y'] =
      some { datetime_format := ['%', 'Y'], regex := [dAtom 1 (some 4)] } := by
  decide

/-- C2 counterexample: the template `a.c` contains the literal
metacharacter `.`, which the compiler copies unescaped, so the compiled
pattern matches `axc` where the claim requires the pattern to match
only a literal dot at that position. -/
theorem claim_C2_counterexample :
    strftime_to_regex ['a', '.', 'c'] = ['a', '.', 'c'] ∧
    new_with_format ['a', '.', 'c'] =
      some { datetime_format := ['a', '.', 'c'],
             regex := [litAtom 'a', { cls := Cls.any, lo := 1, hi := some 1, quantified := false },
                       litAtom 'c'] } ∧
    mFind [litAtom 'a', { cls := Cls.any, lo := 1, hi := some 1, quantified := false },
        litAtom 'c'] ['a', 'x', 'c'] = some ['a', 'x', 'c'] := by
  decide

/-- C2 amended: literal characters of a template are emitted verbatim
with no escaping whatsoever (for any percent-free template the compiler
is the identity), so a literal that is a pattern metacharacter keeps its
metacharacter meaning in the compiled pattern. -/
theorem claim_C2_amended (t : List Char) (h : ¬ '%' ∈ t) : strftime_to_regex t = t := by
  simp only [strftime_to_regex]
  repeat rw [replaceAll_no_pct _ _ _ h]

/-- C2 witness: the amended statement applied to the template `a.c`. -/
theorem claim_C2_amended_witness :
    ¬ '%' ∈ ['a', '.', 'c'] ∧ strftime_to_regex ['a', '.', 'c'] = ['a', '.', 'c'] :=
  ⟨by decide, claim_C2_amended ['a', '.', 'c'] (by decide)⟩

/-- C3 counterexample: the claim says the `%.f` fragment matches a
leading dot plus digits.  The source maps `%.f` to `\d{1,}`, which has
no dot: on `.781` the leftmost match is `781` without the dot, and the
default pattern match on `23/Nov/2019:06:26:40.781` stops at
`23/Nov/2019:06:26:40`, excluding the fraction `.781`. -/
theorem claim_C3_counterexample :
    strftime_to_regex ['%', '.', 'f'] = fragdotf ∧
    regexParse fragdotf = some [dAtom 1 none] ∧
    mFind [dAtom 1 none] ['.', '7', '8', '1'] = some ['7', '8', '1'] ∧
    mFind defaultAtoms "23/Nov/2019:06:26:40.781".data =
      some "23/Nov/2019:06:26:40".data := by
  decide

/-- C3 amended: `%.f` compiles to `\d{1,}` (one or more digits, no
leading dot); the default pattern match on
`23/Nov/2019:06:26:40.781` therefore excludes the fraction, and
`find_timestamp` still resolves the epoch value because the parser
treats the fraction as optional. -/
theorem claim_C3_amended :
    strftime_to_regex ['%', '.', 'f'] = ['\\', 'd', '{', '1', ',', '}'] ∧
    mFind defaultAtoms "23/Nov/2019:06:26:40.781".data =
      some "23/Nov/2019:06:26:40".data ∧
    find_timestamp defaultFinder "23/Nov/2019:06:26:40.781".data = some 1574490400 := by
  decide

/-- C4: for the finder built by the no-argument constructor, on any
string containing `23/Nov/2019:06:26:40.781` with no match starting
earlier, `find_timestamp` returns `some 1574490400`. -/
theorem claim_C4 (F : TimestampFinder) (pre post : List Char)
    (hF : TimestampFinder.new = some F)
    (hpre : ∀ i, i < pre.length →
      mAtoms defaultAtoms ((pre ++ ("23/Nov/2019:06:26:40.781".data ++ post)).drop i) = none) :
    find_timestamp F (pre ++ ("23/Nov/2019:06:26:40.781".data ++ post)) = some 1574490400 := by
  have hFd : F = defaultFinder := by
    have h0 : TimestampFinder.new = some defaultFinder := by decide
    rw [h0] at hF
    exact (Option.some.inj hF).symm
  subst hFd
  have hskip := mFind_skip defaultAtoms pre.length
    (pre ++ ("23/Nov/2019:06:26:40.781".data ++ post)) hpre
  rw [List.drop_left] at hskip
  have hAt : mAtoms defaultAtoms ("23/Nov/2019:06:26:40.781".data ++ post) =
      some ("23/Nov/2019:06:26:40".data, ".781".data ++ post) := rfl
  have hfind : mFind defaultAtoms ("23/Nov/2019:06:26:40.781".data ++ post) =
      some "23/Nov/2019:06:26:40".data := by
    show mFind defaultAtoms ('2' :: ("3/Nov/2019:06:26:40.781".data ++ post)) = _
    simp only [mFind]
    rw [show mAtoms defaultAtoms ('2' :: ("3/Nov/2019:06:26:40.781".data ++ post)) =
        some ("23/Nov/2019:06:26:40".data, ".781".data ++ post) from hAt]
  have hft : find_timestamp defaultFinder (pre ++ ("23/Nov/2019:06:26:40.781".data ++ post)) =
      (mFind defaultAtoms (pre ++ ("23/Nov/2019:06:26:40.781".data ++ post))).bind
        (fun m => chronoParse defaultFinder.datetime_format m) := rfl
  rw [hft, hskip, hfind]
  show chronoParse defaultFinder.datetime_format "23/Nov/2019:06:26:40".data = some 1574490400
  decide

/-- C4 witness: the theorem applied with empty context around the
timestamp text. -/
theorem claim_C4_witness :
    find_timestamp defaultFinder ([] ++ ("23/Nov/2019:06:26:40.781".data ++ [])) =
      some 1574490400 :=
  claim_C4 defaultFinder [] [] (by decide) (fun i hi => absurd hi (Nat.not_lt_zero i))

/-- C5: for the finder built from `%s`, text beginning with ten digits
`1621568291` and a space yields `some 1621568291`, and text beginning
with the seven digits `1234567` and a space yields `some 1234567`:
shorter digit runs are accepted. -/
theorem claim_C5 (F : TimestampFinder) (r1 r2 : List Char)
    (hF : new_with_format "%s".data = some F) :
    find_timestamp F ("1621568291 ".data ++ r1) = some 1621568291 ∧
    find_timestamp F ("1234567 ".data ++ r2) = some 1234567 := by
  have hFd : F = epochFinder := by
    have h0 : new_with_format "%s".data = some epochFinder := by decide
    rw [h0] at hF
    exact (Option.some.inj hF).symm
  subst hFd
  constructor
  · have hAt : mAtoms [dAtom 1 (some 10)] ("1621568291 ".data ++ r1) =
        some ("1621568291".data, ' ' :: r1) := rfl
    have hfind : mFind [dAtom 1 (some 10)] ("1621568291 ".data ++ r1) =
        some "1621568291".data := by
      show mFind [dAtom 1 (some 10)] ('1' :: ("621568291 ".data ++ r1)) = _
      simp only [mFind]
      rw [show mAtoms [dAtom 1 (some 10)] ('1' :: ("621568291 ".data ++ r1)) =
          some ("1621568291".data, ' ' :: r1) from hAt]
    have hft : find_timestamp epochFinder ("1621568291 ".data ++ r1) =
        (mFind [dAtom 1 (some 10)] ("1621568291 ".data ++ r1)).bind
          (fun m => chronoParse epochFinder.datetime_format m) := rfl
    rw [hft, hfind]
    show chronoParse epochFinder.datetime_format "1621568291".data = some 1621568291
    decide
  · have hAt : mAtoms [dAtom 1 (some 10)] ("1234567 ".data ++ r2) =
        some ("1234567".data, ' ' :: r2) := rfl
    have hfind : mFind [dAtom 1 (some 10)] ("1234567 ".data ++ r2) =
        some "1234567".data := by
      show mFind [dAtom 1 (some 10)] ('1' :: ("234567 ".data ++ r2)) = _
      simp only [mFind]
      rw [show mAtoms [dAtom 1 (some 10)] ('1' :: ("234567 ".data ++ r2)) =
          some ("1234567".data, ' ' :: r2) from hAt]
    have hft : find_timestamp epochFinder ("1234567 ".data ++ r2) =
        (mFind [dAtom 1 (some 10)] ("1234567 ".data ++ r2)).bind
          (fun m => chronoParse epochFinder.datetime_format m) := rfl
    rw [hft, hfind]
    show chronoParse epochFinder.datetime_format "1234567".data = some 1234567
    decide

/-- C5 witness: the theorem applied with empty tails after the space. -/
theorem claim_C5_witness :
    find_timestamp epochFinder ("1621568291 ".data ++ []) = some 1621568291 ∧
    find_timestamp epochFinder ("1234567 ".data ++ []) = some 1234567 :=
  claim_C5 epochFinder [] [] (by decide)

/-- C6: on an error-free stream, `scan` visits the lines in order,
skips exactly the lines where `find_timestamp` misses, and returns the
in-order sequence of hits. -/
theorem claim_C6 (F : TimestampFinder) (lines : List (List Char)) :
    scan F (lines.map Except.ok) = Except.ok (lines.filterMap (find_timestamp F)) := by
  unfold scan
  rw [mapWhileOk_map_ok]

/-- C7: when the stream yields some good lines and then a read error,
`scan` stops at the error and returns the timestamps collected from the
lines before it, without surfacing the error. -/
theorem claim_C7 (F : TimestampFinder) (good : List (List Char))
    (rest : List (Except Unit (List Char))) :
    scan F (good.map Except.ok ++ Except.error () :: rest) =
      Except.ok (good.filterMap (find_timestamp F)) := by
  unfold scan
  rw [mapWhileOk_trunc]

/-- C8 counterexample: the claim says calendar fields missing from the
template default to the epoch start, so `%H:%M:%S` on `12:34:56` would
give `some 45296`.  The finder for `%H:%M:%S` exists, but the parser
requires year, month and day, so `find_timestamp` returns `none`. -/
theorem claim_C8_counterexample :
    (new_with_format "%H:%M:%S".data).isSome = true ∧
    (new_with_format "%H:%M:%S".data).bind
      (fun F => find_timestamp F "12:34:56".data) = none := by
  decide

/-- C8 amended: only the second (and the sub-second fraction) default
when unspecified, to zero: a template with date, hour and minute but no
`%S` resolves with second 0, as UTC with no timezone adjustment.  A
template missing year, month, day, hour or minute makes `find_timestamp`
return `none` -- unless `%s` supplies the epoch value directly,
bypassing calendar assembly. -/
theorem claim_C8_amended :
    (new_with_format "%d/%b/%Y:%H:%M".data).bind
      (fun F => find_timestamp F "23/Nov/2019:06:26".data) = some 1574490360 ∧
    (new_with_format "%H:%M:%S".data).isSome = true ∧
    (new_with_format "%H:%M:%S".data).bind
      (fun F => find_timestamp F "12:34:56".data) = none ∧
    (new_with_format "%s".data).bind
      (fun F => find_timestamp F "1621568291".data) = some 1621568291 := by
  decide

/-- C9: for any finder whose template lexes to calendar items (no `%s`,
which per the spec bypasses calendar assembly and involves no calendar
run), whenever the compiled pattern finds a leftmost match whose parse
collects a calendar-invalid digit run -- month outside 1-12, day
outside 1-31 (in particular day 0 or day 32), hour above 23, minute
above 59, or second above 60 -- `find_timestamp` rejects at parse level
and returns `none` (and, the model being total, does not crash). -/
theorem claim_C9 (F : TimestampFinder) (s m r : List Char) (items : List FItem) (p : Parsed)
    (hm : mFind F.regex s = some m)
    (hlex : lexFormat F.datetime_format = some items)
    (hno : ¬ FItem.spec FSpec.sEpoch ∈ items)
    (hp : parseItems items m Parsed.init = some (p, r))
    (hinv : calendarInvalid p = true) :
    find_timestamp F s = none := by
  have hts : p.timestamp = none :=
    parseItems_ts items m Parsed.init (p, r) hno hp
  have hres : resolve p = none := resolve_none_of_invalid p hts hinv
  have hcp : chronoParse F.datetime_format m = none := by
    unfold chronoParse
    rw [hlex]
    simp only [Option.some_bind']
    rw [hp]
    simp only [Option.some_bind']
    split
    · exact hres
    · rfl
  have hft : find_timestamp F s =
      (mFind F.regex s).bind (fun m => chronoParse F.datetime_format m) := rfl
  rw [hft, hm]
  simpa using hcp

/-- C9 witness: the theorem applied to the default finder on a text
whose leftmost match carries day 32. -/
theorem claim_C9_witness :
    find_timestamp defaultFinder "32/Nov/2019:06:26:40.781".data = none :=
  claim_C9 defaultFinder "32/Nov/2019:06:26:40.781".data "32/Nov/2019:06:26:40".data []
    defaultItems
    { year := some 2019, year_div_100 := none, year_mod_100 := none, month := some 11,
      day := some 32, hour := some 6, minute := some 26, second := some 40,
      nanosecond := none, timestamp := none }
    (by decide) (by decide) (by decide) (by decide) (by decide)

/-- C10: `scan` never returns the error variant: read failures truncate
the line sequence and parse misses are skipped, so every call is `Ok`. -/
theorem claim_C10 (F : TimestampFinder) (reader : List (Except Unit (List Char))) (e : Unit) :
    ¬ scan F reader = Except.error e := fun h => by simp [scan] at h

end Timescan
